import Mathlib

/-!
Shallow embedding of the Wikifunctions MCP type converter
(source file: the module exporting convertValueToZObject / convertZObjectToValue).

JavaScript values are modelled by the inductive type JsVal: wire objects are
association lists of string keys, JS numbers are carried as their IEEE-754
binary64 bit pattern (a natural number below 2^64), JS BigInt is Int, and the
JS exception outcomes of the two converters are made explicit with Except.
-/

/-- Kinds of JavaScript exceptions the embedded code can raise. -/
inductive JsErr where
  | typeError
  | rangeError
  | syntaxError
deriving DecidableEq

/-- A JavaScript value, restricted to the shapes the codec manipulates:
undefined, null, booleans, numbers (as binary64 bit patterns), BigInts,
strings, and plain objects (ordered association lists of own properties). -/
inductive JsVal where
  | undefinedV : JsVal
  | null : JsVal
  | bool : Bool → JsVal
  | num : Nat → JsVal
  | bigint : Int → JsVal
  | str : String → JsVal
  | obj : List (String × JsVal) → JsVal

/-- First binding of a key in an object's property list. -/
def getFieldList : List (String × JsVal) → String → Option JsVal
  | [], _ => none
  | (k, v) :: fs, key => if k = key then some v else getFieldList fs key

/-- Property read a.k: undefined when the key is absent or the receiver is not
an object (the source only dereferences non-objects behind guards or the
optional-chaining operator, whose result is undefined in those cases). -/
def JsVal.getField : JsVal → String → JsVal
  | .obj fs, key => (getFieldList fs key).getD .undefinedV
  | _, _ => .undefinedV

/-- The hasOwnProperty test used by the decoder's default branch. -/
def hasOwnProperty : JsVal → String → Bool
  | .obj fs, key => (getFieldList fs key).isSome
  | _, _ => false

/-- Property write for object literals with a computed key: a duplicate key
keeps its original position but takes the last assigned value. -/
def setFieldList : List (String × JsVal) → String → JsVal → List (String × JsVal)
  | [], k, v => [(k, v)]
  | (k', v') :: fs, k, v => if k' = k then (k', v) :: fs else (k', v') :: setFieldList fs k v

/-- Bit pattern of the canonical JavaScript NaN. -/
def nanBits : Nat := 0x7FF8000000000000

/-- Bit pattern of Number.POSITIVE_INFINITY. -/
def posInfBits : Nat := 0x7FF0000000000000

/-- Bit pattern of Number.NEGATIVE_INFINITY. -/
def negInfBits : Nat := 0xFFF0000000000000

/-- Bit pattern of negative zero. -/
def negZeroBits : Nat := 0x8000000000000000

/-- Number.isNaN on a binary64 bit pattern. -/
def isNaNBits (bits : Nat) : Bool :=
  bits / 2 ^ 52 % 2 ^ 11 == 2047 && bits % 2 ^ 52 != 0

/-- Strict equality of two JS numbers given as bit patterns: NaN compares
unequal to everything, the two zeros compare equal, all else is bit equality. -/
def jsNumEq (a b : Nat) : Bool :=
  if isNaNBits a || isNaNBits b then false
  else if (a == 0 || a == negZeroBits) && (b == 0 || b == negZeroBits) then true
  else a == b

/-- The comparison num >= 0 on a binary64 bit pattern. -/
def jsGe0 (bits : Nat) : Bool :=
  if isNaNBits bits then false
  else if bits < 2 ^ 63 then true
  else bits == negZeroBits

/-- JS unary minus on a number: flips the sign bit of the binary64 pattern. -/
def negBits (bits : Nat) : Nat :=
  if bits < 2 ^ 63 then bits + 2 ^ 63 else bits - 2 ^ 63

/-- Little-endian base-10 digits of n, with explicit structural fuel so the
definition reduces by rfl; fuel n suffices since n shrinks at every step. -/
def toDigitsAux : Nat → Nat → List Nat
  | 0, _ => []
  | fuel + 1, n => if n = 0 then [] else n % 10 :: toDigitsAux fuel (n / 10)

/-- Little-endian base-10 digits of n (empty for 0). -/
def natDigits (n : Nat) : List Nat := toDigitsAux n n

/-- The character for a decimal digit value. -/
def decDigitChar (d : Nat) : Char := Char.ofNat (48 + d)

/-- Decimal rendering of a natural number, as produced by BigInt.toString
and by Number.toString on integral values. -/
def natToString (n : Nat) : String :=
  if n = 0 then "0" else ⟨(natDigits n).reverse.map decDigitChar⟩

/-- Decimal rendering of a BigInt: optional minus sign, then the magnitude. -/
def bigIntToString (i : Int) : String :=
  (if i < 0 then "-" else "") ++ natToString i.natAbs

/-- White-space characters recognised by the JS string-trimming performed by
StringToBigInt and StringToNumber (the ASCII subset; no wire string in this
codebase carries the exotic Unicode spaces). -/
def jsWhitespace (c : Char) : Bool :=
  c == ' ' || c == '\t' || c == '\n' || c == '\r' || c == '\x0b' || c == '\x0c'

/-- Trim white space from both ends of a character list. -/
def trimChars (l : List Char) : List Char :=
  ((l.dropWhile jsWhitespace).reverse.dropWhile jsWhitespace).reverse

/-- Value of a decimal digit character, if it is one. -/
def decDigitVal (c : Char) : Option Nat :=
  if 48 ≤ c.toNat ∧ c.toNat ≤ 57 then some (c.toNat - 48) else none

/-- Parse a run of decimal digit characters into an accumulator; fails on the
first non-digit. -/
def parseDecDigits : List Char → Nat → Option Nat
  | [], acc => some acc
  | c :: cs, acc =>
    match decDigitVal c with
    | some d => parseDecDigits cs (acc * 10 + d)
    | none => none

/-- StringToBigInt, the conversion applied by the JS builtin BigInt to string
arguments: trim white space; an empty remainder means 0n; an optional single
sign is followed by at least one decimal digit; anything else throws a
SyntaxError. (The nondecimal 0x/0o/0b prefixes accepted by JS are outside the
modelled fragment; no string in the codec or in the claims uses them.) -/
def stringToBigInt (s : String) : Except JsErr Int :=
  match trimChars s.data with
  | [] => .ok 0
  | c :: rest =>
    if c = '-' then
      match rest with
      | [] => .error .syntaxError
      | _ =>
        match parseDecDigits rest 0 with
        | some v => .ok (-(v : Int))
        | none => .error .syntaxError
    else if c = '+' then
      match rest with
      | [] => .error .syntaxError
      | _ =>
        match parseDecDigits rest 0 with
        | some v => .ok (v : Int)
        | none => .error .syntaxError
    else
      match parseDecDigits (c :: rest) 0 with
      | some v => .ok (v : Int)
      | none => .error .syntaxError

/-- Round p/q to the nearest natural number, ties to even (q > 0). -/
def roundHalfEven (p q : Nat) : Nat :=
  let d := p / q
  let r := p % q
  if q < 2 * r then d + 1
  else if 2 * r < q then d
  else if d % 2 == 0 then d else d + 1

/-- Decide 2^e ≤ p/q over the rationals using only natural arithmetic. -/
def ratPow2Le (p q : Nat) (e : Int) : Bool :=
  if 0 ≤ e then decide (q * 2 ^ e.toNat ≤ p) else decide (q ≤ p * 2 ^ (-e).toNat)

/-- Floor of the base-2 logarithm of p/q (p, q ≥ 1). -/
def floorLog2Rat (p q : Nat) : Int :=
  let e0 : Int := (Nat.log2 p : Int) - (Nat.log2 q : Int)
  if ratPow2Le p q (e0 + 1) then e0 + 1
  else if ratPow2Le p q e0 then e0
  else e0 - 1

/-- Bit pattern of the binary64 value nearest to (-1)^neg * p/q, rounding
ties to even, with overflow to infinity and gradual underflow — the rounding
the JS builtins Number() and StringToNumber perform. -/
def floatOfRat (neg : Bool) (p q : Nat) : Nat :=
  let signBit := if neg then 2 ^ 63 else 0
  if q == 0 then nanBits
  else if p == 0 then signBit
  else
    let e := floorLog2Rat p q
    if 1024 ≤ e then signBit + posInfBits
    else
      let shift : Int := if e < -1022 then 1074 else 52 - e
      let m :=
        if 0 ≤ shift then roundHalfEven (p * 2 ^ shift.toNat) q
        else roundHalfEven p (q * 2 ^ (-shift).toNat)
      if e < -1022 then signBit + m
      else if m == 2 ^ 53 then
        if 1023 ≤ e then signBit + posInfBits
        else signBit + (e + 1 + 1023).toNat * 2 ^ 52
      else signBit + (e + 1023).toNat * 2 ^ 52 + (m - 2 ^ 52)

/-- Value of a hexadecimal digit character, if it is one. -/
def hexDigitVal (c : Char) : Option Nat :=
  if 48 ≤ c.toNat ∧ c.toNat ≤ 57 then some (c.toNat - 48)
  else if 97 ≤ c.toNat ∧ c.toNat ≤ 102 then some (c.toNat - 87)
  else if 65 ≤ c.toNat ∧ c.toNat ≤ 70 then some (c.toNat - 55)
  else none

/-- Parse a run of digits of the given radix; fails on the first bad char. -/
def parseRadixDigits (base : Nat) (digitOf : Char → Option Nat) :
    List Char → Nat → Option Nat
  | [], acc => some acc
  | c :: cs, acc =>
    match digitOf c with
    | some d => parseRadixDigits base digitOf cs (acc * base + d)
    | none => none

/-- Leading run of decimal digit values of a character list, with the rest. -/
def spanDecDigits : List Char → List Nat × List Char
  | [] => ([], [])
  | c :: cs =>
    match decDigitVal c with
    | some d =>
      let p := spanDecDigits cs
      (d :: p.1, p.2)
    | none => ([], c :: cs)

/-- Numeric value of a big-endian decimal digit list. -/
def decDigitsToNat (ds : List Nat) (acc : Nat) : Nat :=
  ds.foldl (fun a d => a * 10 + d) acc

/-- Parse a JS decimal number literal body (digits, optional fraction,
optional exponent) into significand-digits and a power-of-ten exponent. -/
def parseDecimalLiteral (cs : List Char) : Option (Nat × Int) :=
  let ip := spanDecDigits cs
  let fp :=
    match ip.2 with
    | '.' :: cs2 => spanDecDigits cs2
    | _ => ([], ip.2)
  if ip.1.isEmpty && fp.1.isEmpty then none
  else
    let sig := decDigitsToNat (ip.1 ++ fp.1) 0
    let fracLen : Int := fp.1.length
    match fp.2 with
    | [] => some (sig, -fracLen)
    | c :: cs3 =>
      if c = 'e' ∨ c = 'E' then
        let signed : Int × List Char :=
          match cs3 with
          | '-' :: cs4 => (-1, cs4)
          | '+' :: cs4 => (1, cs4)
          | _ => (1, cs3)
        let eds := spanDecDigits signed.2
        if eds.1.isEmpty || !eds.2.isEmpty then none
        else some (sig, signed.1 * decDigitsToNat eds.1 0 - fracLen)
      else none

/-- StringToNumber, the conversion the JS builtin Number applies to strings:
trim, empty means +0, radix-prefixed integers, otherwise an optionally signed
decimal literal or Infinity; anything else is NaN. -/
def stringToNumber (s : String) : Nat :=
  match trimChars s.data with
  | [] => 0
  | '0' :: 'x' :: rest => ((parseRadixDigits 16 hexDigitVal rest 0).bind
      (fun n => if rest.isEmpty then none else some (floatOfRat false n 1))).getD nanBits
  | '0' :: 'X' :: rest => ((parseRadixDigits 16 hexDigitVal rest 0).bind
      (fun n => if rest.isEmpty then none else some (floatOfRat false n 1))).getD nanBits
  | cs =>
    let signed : Bool × List Char :=
      match cs with
      | '-' :: r => (true, r)
      | '+' :: r => (false, r)
      | _ => (false, cs)
    if signed.2 = ['I', 'n', 'f', 'i', 'n', 'i', 't', 'y'] then
      if signed.1 then negInfBits else posInfBits
    else
      match parseDecimalLiteral signed.2 with
      | some (sig, e10) =>
        if 0 ≤ e10 then floatOfRat signed.1 (sig * 10 ^ e10.toNat) 1
        else floatOfRat signed.1 sig (10 ^ (-e10).toNat)
      | none => nanBits

/-- Exact decimal rendering of the magnitude sig * 2^E of a finite double. -/
def numMagToString (sig : Nat) (E : Int) : String :=
  if 0 ≤ E then natToString (sig * 2 ^ E.toNat)
  else
    let k := (-E).toNat
    let ds0 := (natToString (sig * 5 ^ k)).data
    let ds := List.replicate (k + 1 - ds0.length) '0' ++ ds0
    let intPart := ds.take (ds.length - k)
    let fracPart := ((ds.drop (ds.length - k)).reverse.dropWhile (· == '0')).reverse
    if fracPart.isEmpty then ⟨intPart⟩ else ⟨intPart ++ '.' :: fracPart⟩

/-- Number.prototype.toString on a binary64 bit pattern. Deviation from JS,
documented: JS prints the shortest decimal that reads back to the same double
and switches to exponential notation outside [1e-6, 1e21); this model prints
the exact decimal value of the double instead. The codec's claims never
depend on the rendering of a non-integral number. -/
def numToString (bits : Nat) : String :=
  if isNaNBits bits then "NaN"
  else
    let neg := decide (2 ^ 63 ≤ bits)
    let mag := bits % 2 ^ 63
    let sgn := if neg then "-" else ""
    if mag == posInfBits then sgn ++ "Infinity"
    else if mag == 0 then "0"
    else
      let ebits : Nat := mag / 2 ^ 52
      let m := mag % 2 ^ 52
      if ebits == 0 then sgn ++ numMagToString m (-1074)
      else sgn ++ numMagToString (2 ^ 52 + m) ((ebits : Int) - 1075)

/-- The JS builtin BigInt applied to a number: exact integral doubles convert
to their value, everything else throws a RangeError. -/
def floatBitsToBigInt (bits : Nat) : Except JsErr Int :=
  let sgn : Int := if 2 ^ 63 ≤ bits % 2 ^ 64 then -1 else 1
  let ebits := bits / 2 ^ 52 % 2 ^ 11
  let m := bits % 2 ^ 52
  if ebits = 2047 then .error .rangeError
  else if ebits = 0 then
    if m = 0 then .ok 0 else .error .rangeError
  else
    let sig : Nat := 2 ^ 52 + m
    if 1075 ≤ ebits then .ok (sgn * (sig : Int) * 2 ^ (ebits - 1075))
    else if sig % 2 ^ (1075 - ebits) = 0 then .ok (sgn * ((sig / 2 ^ (1075 - ebits) : Nat) : Int))
    else .error .rangeError

/-- The JS builtin BigInt as the source calls it (BigInt(value)): plain
objects reach StringToBigInt through ToPrimitive, which on a plain object
without overridden valueOf/toString yields the string "[object Object]". -/
def jsBigIntOf : JsVal → Except JsErr Int
  | .bigint i => .ok i
  | .str s => stringToBigInt s
  | .bool b => .ok (if b then 1 else 0)
  | .num bits => floatBitsToBigInt bits
  | .null => .error .typeError
  | .undefinedV => .error .typeError
  | .obj _ => stringToBigInt "[object Object]"

/-- The JS builtin Number as the source calls it (Number(value)). -/
def jsNumberOf : JsVal → Nat
  | .num bits => bits
  | .bigint i => floatOfRat (decide (i < 0)) i.natAbs 1
  | .str s => stringToNumber s
  | .bool b => if b then 0x3FF0000000000000 else 0
  | .null => 0
  | .undefinedV => nanBits
  | .obj _ => stringToNumber "[object Object]"

/-- JS String(value) coercion. -/
def jsToString : JsVal → String
  | .str s => s
  | .bigint i => bigIntToString i
  | .num bits => numToString bits
  | .bool b => if b then "true" else "false"
  | .undefinedV => "undefined"
  | .null => "null"
  | .obj _ => "[object Object]"

/-- JS falsiness, as tested by the decoder's !zObject guard. -/
def jsFalsy : JsVal → Bool
  | .undefinedV => true
  | .null => true
  | .bool b => !b
  | .num bits => bits == 0 || bits == negZeroBits || isNaNBits bits
  | .bigint i => i == 0
  | .str s => s == ""
  | .obj _ => false

/-- JS strict equality as the codec uses it. The codec only ever compares a
freshly read field against a string literal, so the object/object case (JS
reference equality, comparing a field against itself is never done here)
is conservatively false. -/
def jsStrictEq : JsVal → JsVal → Bool
  | .str a, .str b => a == b
  | .num a, .num b => jsNumEq a b
  | .bigint a, .bigint b => a == b
  | .bool a, .bool b => a == b
  | .undefinedV, .undefinedV => true
  | .null, .null => true
  | _, _ => false

/-- Embeds buildFloat64Object from the source: constructs the detailed
Z20838 (float64) wire object from sign, unbiased exponent, mantissa and the
special-value marker. -/
def buildFloat64Object (positive : Bool) (exponent : Int) (mantisse : Nat)
    (special : String) : JsVal :=
  .obj [("Z1K1", .str "Z20838"),
    ("Z20838K1", .obj [("Z1K1", .str "Z16659"),
      ("Z16659K1", .obj [("Z1K1", .str "Z9"),
        ("Z9K1", .str (if positive then "Z16660" else "Z16662"))])]),
    ("Z20838K2", .obj [("Z1K1", .str "Z16683"),
      ("Z16683K1", .obj [("Z1K1", .str "Z16659"),
        ("Z16659K1", .obj [("Z1K1", .str "Z9"),
          ("Z9K1", .str (if exponent < 0 then "Z16662"
            else if exponent = 0 then "Z16661" else "Z16660"))])]),
      ("Z16683K2", .obj [("Z1K1", .str "Z13518"),
        ("Z13518K1", .obj [("Z1K1", .str "Z6"),
          ("Z6K1", .str (natToString exponent.natAbs))])])]),
    ("Z20838K3", .obj [("Z1K1", .str "Z13518"),
      ("Z13518K1", .obj [("Z1K1", .str "Z6"),
        ("Z6K1", .str (natToString mantisse))])]),
    ("Z20838K4", .obj [("Z1K1", .str "Z20825"),
      ("Z20825K1", .obj [("Z1K1", .str "Z9"),
        ("Z9K1", .str special)])])]

/-- Embeds convertValueToZObject from the source. BigInt(value) can throw, so
the result is an Except; the Z20838 branch models the DataView round trip
setFloat64/getBigUint64 on the absolute value as the identity on the bit
pattern, with the exponent extracted by shifting and the mantissa by modulus
exactly as the source does. -/
def convertValueToZObject (value : JsVal) (requiredTypeZid : String) :
    Except JsErr JsVal :=
  if requiredTypeZid = "Z16683" then
    match jsBigIntOf value with
    | .error e => .error e
    | .ok num =>
      let absValue := if 0 < num then num else -num
      let signZid := if 0 < num then "Z16660" else if num < 0 then "Z16662" else "Z16661"
      .ok (.obj [("Z1K1", .str "Z16683"),
        ("Z16683K1", .obj [("Z1K1", .str "Z16659"),
          ("Z16659K1", .obj [("Z1K1", .str "Z9"), ("Z9K1", .str signZid)])]),
        ("Z16683K2", .obj [("Z1K1", .str "Z13518"),
          ("Z13518K1", .obj [("Z1K1", .str "Z6"),
            ("Z6K1", .str (bigIntToString absValue))])])])
  else if requiredTypeZid = "Z20838" then
    let num := jsNumberOf value
    if isNaNBits num then .ok (buildFloat64Object true 0 0 "Z20834")
    else if jsNumEq num posInfBits then .ok (buildFloat64Object true 0 0 "Z20832")
    else if jsNumEq num negInfBits then .ok (buildFloat64Object false 0 0 "Z20833")
    else if num == negZeroBits then .ok (buildFloat64Object false 0 0 "Z20831")
    else if jsNumEq num 0 then .ok (buildFloat64Object true 0 0 "Z20829")
    else
      let positive := jsGe0 num
      let absval := if positive then num else negBits num
      let i := absval
      let exponent : Int := (i / 2 ^ 52 : Nat) - 1023
      let mantisse : Nat := i % 2 ^ 52
      .ok (buildFloat64Object positive exponent mantisse "Z20837")
  else
    .ok (.obj (setFieldList [("Z1K1", .str requiredTypeZid)]
      (requiredTypeZid ++ "K1") (.str (jsToString value))))

/-- Embeds the sign-resolving while loop of the Integer decoder (the loop
that repeatedly replaces sign by sign.Z9K1 or sign.Z16659K1 while sign is a
non-null object, and by the empty string when neither key exists). The JS
loop is unbounded; on the tree-shaped values of JsVal each step moves to a
strictly smaller subterm, which is the termination argument. -/
def unwrapSign (sign : JsVal) : JsVal :=
  match sign with
  | .obj fs =>
    if h9 : (getFieldList fs "Z9K1").isSome then
      unwrapSign ((getFieldList fs "Z9K1").getD .undefinedV)
    else if h16 : (getFieldList fs "Z16659K1").isSome then
      unwrapSign ((getFieldList fs "Z16659K1").getD .undefinedV)
    else .str ""
  | v => v
termination_by sizeOf sign
decreasing_by
  all_goals
    have aux : ∀ (l : List (String × JsVal)) (key : String),
        (getFieldList l key).isSome = true →
        sizeOf ((getFieldList l key).getD JsVal.undefinedV) < 1 + sizeOf l := by
      intro l key h
      induction l with
      | nil => simp [getFieldList] at h
      | cons p rest ih =>
        obtain ⟨k, v⟩ := p
        simp only [getFieldList] at h ⊢
        by_cases hk : k = key
        · rw [if_pos hk] at h ⊢
          have h1 : sizeOf ((k, v) :: rest) = 1 + sizeOf (k, v) + sizeOf rest := by simp
          have h2 : sizeOf (k, v) = 1 + sizeOf k + sizeOf v := by simp
          simp only [Option.getD_some]
          omega
        · rw [if_neg hk] at h ⊢
          have h3 := ih h
          have h1 : sizeOf ((k, v) :: rest) = 1 + sizeOf (k, v) + sizeOf rest := by simp
          omega
  case _ => simpa using aux fs "Z9K1" h9
  case _ => simpa using aux fs "Z16659K1" h16

/-- Embeds convertZObjectToValue from the source. Decoding can throw (via
BigInt on unparsable strings and on wrapper objects), so the result is an
Except; a returned .ok carries the JS value the function returns. -/
def convertZObjectToValue (zObject : JsVal) : Except JsErr JsVal :=
  if jsFalsy zObject then .ok zObject
  else
    match zObject.getField "Z1K1" with
    | .str type =>
      if type = "Z16683" then
        let valueStr0 := (zObject.getField "Z16683K2").getField "Z13518K1"
        let valueStr :=
          match valueStr0 with
          | .obj fs =>
            if jsStrictEq (JsVal.getField (.obj fs) "Z1K1") (.str "Z6") then
              JsVal.getField (.obj fs) "Z6K1"
            else .obj fs
          | v => v
        match valueStr with
        | .str s =>
          match stringToBigInt s with
          | .error e => .error e
          | .ok value =>
            let sign := unwrapSign ((zObject.getField "Z16683K1").getField "Z16659K1")
            let signMultiplier : Int :=
              if jsStrictEq sign (.str "Z16662") then -1
              else if jsStrictEq sign (.str "Z16661") then 0
              else 1
            if 0 < value ∧ signMultiplier = 0 then .ok (.bigint value)
            else .ok (.bigint (signMultiplier * value))
        | _ => .ok zObject
      else if type = "Z20838" then
        let special := (zObject.getField "Z20838K4").getField "Z20825K1"
        match special with
        | .str "Z20834" => .ok (.num nanBits)
        | .str "Z20832" => .ok (.num posInfBits)
        | .str "Z20833" => .ok (.num negInfBits)
        | .str "Z20831" => .ok (.num negZeroBits)
        | .str "Z20829" => .ok (.num 0)
        | _ =>
          let positive := jsStrictEq ((zObject.getField "Z20838K1").getField "Z16659K1")
            (.str "Z16660")
          let exponentSign :=
            ((zObject.getField "Z20838K2").getField "Z16683K1").getField "Z16659K1"
          let exponentStr :=
            ((zObject.getField "Z20838K2").getField "Z16683K2").getField "Z13518K1"
          let mantisseStr := (zObject.getField "Z20838K3").getField "Z13518K1"
          if jsStrictEq exponentStr .undefinedV || jsStrictEq mantisseStr .undefinedV then
            .ok zObject
          else
            match jsBigIntOf exponentStr with
            | .error e => .error e
            | .ok exponent0 =>
              let exponent := if jsStrictEq exponentSign (.str "Z16662") then -exponent0
                else exponent0
              match jsBigIntOf mantisseStr with
              | .error e => .error e
              | .ok mantisse =>
                let i : Int := (exponent + 1023) * 2 ^ 52 + mantisse
                let bits := (i % (2 ^ 64 : Int)).toNat
                let value := bits
                .ok (.num (if positive then value else negBits value))
      else
        let valueKey := type ++ "K1"
        if hasOwnProperty zObject valueKey then .ok (zObject.getField valueKey)
        else .ok zObject
    | _ => .ok zObject

/-- Fuel-indexed version of the sign-resolving loop, used to state that the
loop reaches its exit condition within finitely many iterations on every
tree-shaped input: none means the fuel ran out with the loop still going. -/
def unwrapSignFuel : Nat → JsVal → Option JsVal
  | 0, _ => none
  | fuel + 1, sign =>
    match sign with
    | .obj fs =>
      if (getFieldList fs "Z9K1").isSome then
        unwrapSignFuel fuel ((getFieldList fs "Z9K1").getD .undefinedV)
      else if (getFieldList fs "Z16659K1").isSome then
        unwrapSignFuel fuel ((getFieldList fs "Z16659K1").getD .undefinedV)
      else some (.str "")
    | v => some v

/-- A JS runtime value as the sign loop sees it under reference semantics:
either a reference to a heap object or a primitive. Needed to express what
the loop does on cyclic object graphs, which the tree type JsVal cannot
represent. -/
inductive HRef where
  | addr : Nat → HRef
  | prim : JsVal → HRef

/-- A heap assigning to every address a property list over HRef. -/
def SignHeap : Type := Nat → List (String × HRef)

/-- First binding of a key in a heap object's property list. -/
def getFieldListH : List (String × HRef) → String → Option HRef
  | [], _ => none
  | (k, v) :: fs, key => if k = key then some v else getFieldListH fs key

/-- Whether the sign loop keeps running on this value: true exactly when the
value is a (non-null) object, i.e. a heap reference. -/
def isAddrH : HRef → Bool
  | .addr _ => true
  | .prim _ => false

/-- One iteration of the sign-resolving while loop body under reference
semantics: follow Z9K1, else Z16659K1, else become the empty string; the
loop leaves non-object values unchanged (it has already exited). -/
def signStep (h : SignHeap) : HRef → HRef
  | .addr a =>
    if (getFieldListH (h a) "Z9K1").isSome then
      (getFieldListH (h a) "Z9K1").getD (.prim .undefinedV)
    else if (getFieldListH (h a) "Z16659K1").isSome then
      (getFieldListH (h a) "Z16659K1").getD (.prim .undefinedV)
    else .prim (.str "")
  | v => v

/-- n iterations of the sign-resolving loop body. -/
def signIter (h : SignHeap) : Nat → HRef → HRef
  | 0, s => s
  | n + 1, s => signIter h n (signStep h s)

/-- The loop terminates on state s iff after some number of iterations the
while condition (value is an object) fails. -/
def signLoopTerminates (h : SignHeap) (s : HRef) : Prop :=
  ∃ n, isAddrH (signIter h n s) = false

/-- The one-object cyclic heap const a = { Z9K1: a }: address 0 holds an
object whose Z9K1 property refers back to address 0. -/
def cyclicSignHeap : SignHeap := fun _ => [("Z9K1", .addr 0)]

/-- Canonical Integer wire object with an arbitrary sign marker zid and
magnitude, in exactly the nesting the encoder emits; used to state what the
decoder does on each sign marker. -/
def mkIntegerWire (signZid : String) (mag : Nat) : JsVal :=
  .obj [("Z1K1", .str "Z16683"),
    ("Z16683K1", .obj [("Z1K1", .str "Z16659"),
      ("Z16659K1", .obj [("Z1K1", .str "Z9"), ("Z9K1", .str signZid)])]),
    ("Z16683K2", .obj [("Z1K1", .str "Z13518"),
      ("Z13518K1", .obj [("Z1K1", .str "Z6"),
        ("Z6K1", .str (natToString mag))])])]

/-! Helper lemmas: the decimal digit strings produced by the encoder parse
back to the number they came from. -/

theorem toDigitsAux_eq_digits : ∀ (fuel n : Nat), n ≤ fuel →
    toDigitsAux fuel n = Nat.digits 10 n
  | 0, n, h => by
    have : n = 0 := Nat.le_zero.mp h
    subst this
    simp [toDigitsAux]
  | fuel + 1, n, h => by
    by_cases h0 : n = 0
    · subst h0; simp [toDigitsAux]
    · rw [toDigitsAux, if_neg h0, Nat.digits_def' (by norm_num : 1 < 10) (Nat.pos_of_ne_zero h0)]
      congr 1
      exact toDigitsAux_eq_digits fuel (n / 10) (by omega)

theorem natDigits_eq_digits (n : Nat) : natDigits n = Nat.digits 10 n :=
  toDigitsAux_eq_digits n n le_rfl

theorem decDigitVal_decDigitChar {d : Nat} (h : d < 10) :
    decDigitVal (decDigitChar d) = some d := by
  interval_cases d <;> decide

theorem parseDecDigits_map_decDigitChar : ∀ (l : List Nat) (acc : Nat),
    (∀ d ∈ l, d < 10) →
    parseDecDigits (l.map decDigitChar) acc = some (l.foldl (fun a d => a * 10 + d) acc)
  | [], acc, _ => rfl
  | d :: l, acc, h => by
    have hd : d < 10 := h d (by simp)
    rw [List.map_cons, parseDecDigits, decDigitVal_decDigitChar hd]
    exact parseDecDigits_map_decDigitChar l (acc * 10 + d) (fun x hx => h x (by simp [hx]))

theorem foldl_reverse_ofDigits : ∀ (ds : List Nat) (acc : Nat),
    ds.reverse.foldl (fun a d => a * 10 + d) acc = acc * 10 ^ ds.length + Nat.ofDigits 10 ds
  | [], acc => by simp
  | d :: ds, acc => by
    rw [List.reverse_cons, List.foldl_append, foldl_reverse_ofDigits ds acc]
    simp [Nat.ofDigits_cons, List.length_cons]
    ring

theorem jsWhitespace_decDigitChar {d : Nat} (h : d < 10) :
    jsWhitespace (decDigitChar d) = false := by
  interval_cases d <;> decide

theorem dropWhile_eq_self_of_all {p : Char → Bool} :
    ∀ (l : List Char), (∀ c ∈ l, p c = false) → l.dropWhile p = l
  | [], _ => rfl
  | c :: cs, h => by
    have := h c (by simp)
    simp [List.dropWhile, this]

theorem trimChars_eq_self {l : List Char} (h : ∀ c ∈ l, jsWhitespace c = false) :
    trimChars l = l := by
  unfold trimChars
  rw [dropWhile_eq_self_of_all l h,
    dropWhile_eq_self_of_all l.reverse (fun c hc => h c (List.mem_reverse.mp hc)),
    List.reverse_reverse]

theorem decDigitChar_not_sign {d : Nat} (h : d < 10) :
    decDigitChar d ≠ '-' ∧ decDigitChar d ≠ '+' := by
  interval_cases d <;> exact ⟨by decide, by decide⟩

theorem natToString_zero : natToString 0 = "0" := rfl

theorem stringToBigInt_digitList (l : List Nat) (hl : l ≠ [])
    (hdig : ∀ d ∈ l, d < 10) :
    stringToBigInt ⟨l.map decDigitChar⟩ =
      .ok ((l.foldl (fun a d => a * 10 + d) 0 : Nat) : Int) := by
  obtain ⟨d0, rest, rfl⟩ : ∃ d0 rest, l = d0 :: rest := by
    cases l with
    | nil => exact absurd rfl hl
    | cons a t => exact ⟨a, t, rfl⟩
  have hd0 : d0 < 10 := hdig d0 (by simp)
  have hall : ∀ c ∈ (decDigitChar d0 :: rest.map decDigitChar), jsWhitespace c = false := by
    intro c hc
    rcases List.mem_cons.mp hc with rfl | hc2
    · exact jsWhitespace_decDigitChar hd0
    · obtain ⟨d, hd, rfl⟩ := List.mem_map.mp hc2
      exact jsWhitespace_decDigitChar (hdig d (by simp [hd]))
  have hm : decDigitChar d0 ≠ '-' := (decDigitChar_not_sign hd0).1
  have hp : decDigitChar d0 ≠ '+' := (decDigitChar_not_sign hd0).2
  have hparse : parseDecDigits (decDigitChar d0 :: rest.map decDigitChar) 0 =
      some ((d0 :: rest).foldl (fun a d => a * 10 + d) 0) := by
    rw [show (decDigitChar d0 :: rest.map decDigitChar) = (d0 :: rest).map decDigitChar from rfl]
    exact parseDecDigits_map_decDigitChar _ _ hdig
  rw [stringToBigInt]
  simp only [List.map_cons] at hall ⊢
  rw [trimChars_eq_self hall]
  simp [hm, hp, hparse]

theorem stringToBigInt_natToString (n : Nat) :
    stringToBigInt (natToString n) = .ok (n : Int) := by
  by_cases h0 : n = 0
  · subst h0; rfl
  · have hdig : ∀ d ∈ (Nat.digits 10 n).reverse, d < 10 := by
      intro d hd
      exact Nat.digits_lt_base (by norm_num) (List.mem_reverse.mp hd)
    have hne : (Nat.digits 10 n).reverse ≠ [] := by
      simp [Nat.digits_ne_nil_iff_ne_zero.mpr h0]
    rw [natToString, if_neg h0, natDigits_eq_digits]
    rw [stringToBigInt_digitList _ hne hdig]
    rw [foldl_reverse_ofDigits, Nat.ofDigits_digits]
    simp

/-! Helper lemmas about the codec. -/

theorem bigIntToString_natCast (k : Nat) : bigIntToString (k : Int) = natToString k := by
  rw [bigIntToString, if_neg (by omega : ¬ ((k : Int) < 0))]
  rfl

theorem unwrapSign_obj (fs : List (String × JsVal)) :
    unwrapSign (.obj fs) =
      if (getFieldList fs "Z9K1").isSome then
        unwrapSign ((getFieldList fs "Z9K1").getD .undefinedV)
      else if (getFieldList fs "Z16659K1").isSome then
        unwrapSign ((getFieldList fs "Z16659K1").getD .undefinedV)
      else .str "" := by
  rw [unwrapSign.eq_def]
  rfl

/-- Decoding any object built by buildFloat64Object throws: the special
marker read at Z20838K4.Z20825K1 is the sign wrapper object, not the enum
string, so no special case matches, and BigInt is then applied to the
exponent wrapper object, whose ToPrimitive string "[object Object]" fails
StringToBigInt with a SyntaxError. -/
theorem decode_buildFloat64_raises (positive : Bool) (exponent : Int) (mantisse : Nat)
    (special : String) :
    convertZObjectToValue (buildFloat64Object positive exponent mantisse special)
      = .error .syntaxError := rfl

/-- What the decoder returns on a canonically nested Integer wire object
with an arbitrary sign marker: the magnitude with the resolved sign, except
that a zero sign marker together with a positive magnitude returns the bare
magnitude (the explicit value > 0n override in the source). -/
theorem decode_mkIntegerWire (s : String) (m : Nat) :
    convertZObjectToValue (mkIntegerWire s m) =
      .ok (.bigint (if s = "Z16662" then -(m : Int)
        else if s = "Z16661" then (if 0 < m then (m : Int) else 0)
        else (m : Int))) := by
  have hsign : unwrapSign (.obj [("Z1K1", .str "Z9"), ("Z9K1", .str s)]) = .str s := by
    simp [unwrapSign, getFieldList]
  have h1 : convertZObjectToValue (mkIntegerWire s m) =
      (match stringToBigInt (natToString m) with
       | .error e => .error e
       | .ok value =>
         let sign := unwrapSign (.obj [("Z1K1", JsVal.str "Z9"), ("Z9K1", JsVal.str s)])
         let signMultiplier : Int :=
           if jsStrictEq sign (.str "Z16662") then -1
           else if jsStrictEq sign (.str "Z16661") then 0
           else 1
         if 0 < value ∧ signMultiplier = 0 then .ok (.bigint value)
         else .ok (.bigint (signMultiplier * value))) := rfl
  rw [h1, stringToBigInt_natToString m]
  simp only [hsign, jsStrictEq, beq_iff_eq]
  by_cases h2 : s = "Z16662"
  · have hng : ¬ (0 < (m : Int) ∧ (-1 : Int) = 0) := by omega
    simp [h2, hng]
  · by_cases h3 : s = "Z16661"
    · subst h3
      by_cases hm : 0 < m
      · have hg : (0 < (m : Int) ∧ (0 : Int) = 0) := by omega
        simp [hg, hm]
      · have hg : ¬ (0 < (m : Int) ∧ (0 : Int) = 0) := by omega
        simp [hg, hm]
    · have hg : ¬ (0 < (m : Int) ∧ (1 : Int) = 0) := by omega
      simp [h2, h3, hg]

/-- The encoder's Integer output is exactly the canonical Integer wire
object for the value's sign marker and absolute value. -/
theorem encode_bigint_eq_mkIntegerWire (n : Int) :
    convertValueToZObject (.bigint n) "Z16683" =
      .ok (mkIntegerWire (if 0 < n then "Z16660" else if n < 0 then "Z16662" else "Z16661")
        n.natAbs) := by
  have habs : (if 0 < n then n else -n) = (n.natAbs : Int) := by
    split <;> omega
  have hstr : bigIntToString (if 0 < n then n else -n) = natToString n.natAbs := by
    rw [habs, bigIntToString_natCast]
  simp only [convertValueToZObject, jsBigIntOf, hstr, mkIntegerWire]
  simp

/-- On the cyclic heap, every iterate of the sign loop is still the same
object reference. -/
theorem signIter_cyclic (n : Nat) : signIter cyclicSignHeap n (.addr 0) = .addr 0 := by
  induction n with
  | zero => rfl
  | succ k ih =>
    rw [signIter, show signStep cyclicSignHeap (.addr 0) = .addr 0 from rfl]
    exact ih

/-! The claims. -/

/-- Claim C1. The claim states that decoding the result of encoding any
finite double with the Float64 target returns it bit-for-bit. The code
violates this: for every number input (finite inputs included), decoding the
encoder's output throws a SyntaxError, because the decoder reads the nested
wrapper objects one level short and hands a wrapper object to BigInt. This
theorem evaluates the code on every bit pattern, exhibiting the failure. -/
theorem c1_float_roundtrip_always_raises (bits : Nat) :
    (convertValueToZObject (.num bits) "Z20838").bind convertZObjectToValue
      = .error .syntaxError := by
  rw [convertValueToZObject]
  simp only [String.reduceEq, if_false, if_true, reduceIte]
  split_ifs <;> simp [Except.bind, decode_buildFloat64_raises]

/-- Claim C2. The claim states the decoder never raises and returns the
original wire object when a digit string cannot be parsed. The code violates
this: an Integer wire object whose magnitude slot holds the unparsable
string "abc" makes BigInt("abc") throw a SyntaxError (there is no try/catch
around it). This theorem evaluates the decoder at that failing input. -/
theorem c2_decoder_raises_on_unparsable_magnitude :
    convertZObjectToValue (.obj [("Z1K1", .str "Z16683"),
      ("Z16683K2", .obj [("Z1K1", .str "Z13518"), ("Z13518K1", .str "abc")])])
      = .error .syntaxError := rfl

/-- Claim C3. The claim states that NaN, the two infinities and negative
zero survive an encode/decode round trip. The code violates this: the
decoder reads the special marker one nesting level short (it compares the
marker wrapper object against the enum strings), so no special case matches
and decoding each of the four encoded special values throws a SyntaxError. -/
theorem c3_special_values_roundtrip_raises :
    (convertValueToZObject (.num nanBits) "Z20838").bind convertZObjectToValue
      = .error .syntaxError ∧
    (convertValueToZObject (.num posInfBits) "Z20838").bind convertZObjectToValue
      = .error .syntaxError ∧
    (convertValueToZObject (.num negInfBits) "Z20838").bind convertZObjectToValue
      = .error .syntaxError ∧
    (convertValueToZObject (.num negZeroBits) "Z20838").bind convertZObjectToValue
      = .error .syntaxError :=
  ⟨rfl, rfl, rfl, rfl⟩

/-- Claim C4, counterexample. The claim states the encoder never fails by
raising for any value and target; but with the Integer target and the
non-numeric string "abc", BigInt("abc") throws a SyntaxError. -/
theorem c4_encoder_raises_counterexample :
    convertValueToZObject (.str "abc") "Z16683" = .error .syntaxError := rfl

/-- Claim C4, amended. The encoder returns a wire object for every value
with any non-Integer target; with the Integer target it returns a wire
object exactly when the value coerces to a BigInt, and raises otherwise. -/
theorem c4_encoder_totality_amended (v : JsVal) (t : String) :
    (∃ w, convertValueToZObject v t = .ok w) ↔
      (t ≠ "Z16683" ∨ ∃ i, jsBigIntOf v = .ok i) := by
  by_cases ht : t = "Z16683"
  · subst ht
    rw [convertValueToZObject, if_pos rfl]
    cases h : jsBigIntOf v with
    | error e => simp [h]
    | ok i => simp [h]
  · rw [convertValueToZObject, if_neg ht]
    by_cases h2 : t = "Z20838"
    · subst h2
      rw [if_pos rfl]
      constructor
      · intro _; exact Or.inl ht
      · intro _
        dsimp only
        split_ifs <;> exact ⟨_, rfl⟩
    · rw [if_neg h2]
      constructor
      · intro _; exact Or.inl ht
      · intro _; exact ⟨_, rfl⟩

/-- Claim C5. For every integer n (arbitrary precision), decoding the
result of encoding n with the Integer target returns n. -/
theorem c5_integer_roundtrip (n : Int) :
    (convertValueToZObject (.bigint n) "Z16683").bind convertZObjectToValue
      = .ok (.bigint n) := by
  rw [encode_bigint_eq_mkIntegerWire]
  show convertZObjectToValue
    (mkIntegerWire (if 0 < n then "Z16660" else if n < 0 then "Z16662" else "Z16661")
      n.natAbs) = .ok (.bigint n)
  rw [decode_mkIntegerWire]
  rcases lt_trichotomy n 0 with hn | hn | hn
  · have hs : (if 0 < n then "Z16660" else if n < 0 then "Z16662" else "Z16661") = "Z16662" := by
      rw [if_neg (by omega : ¬ 0 < n), if_pos hn]
    rw [hs, if_pos rfl, show -((n.natAbs : Int)) = n from by omega]
  · subst hn
    rfl
  · have hs : (if 0 < n then "Z16660" else if n < 0 then "Z16662" else "Z16661") = "Z16660" := by
      rw [if_pos hn]
    rw [hs, if_neg (by decide : ¬ ("Z16660" : String) = "Z16662"),
      if_neg (by decide : ¬ ("Z16660" : String) = "Z16661"),
      show ((n.natAbs : Int)) = n from by omega]

/-- Claim C6, counterexample. The claim states that a zero sign marker
forces the decoded Integer to 0 regardless of magnitude; but on the wire
object with sign marker Z16661 (zero) and magnitude "5" the decoder returns
5, because of the explicit value > 0n override. -/
theorem c6_sign_zero_counterexample :
    convertZObjectToValue (mkIntegerWire "Z16661" 5) = .ok (.bigint 5) ∧
    convertZObjectToValue (mkIntegerWire "Z16661" 5) ≠ .ok (.bigint 0) := by
  have h := decode_mkIntegerWire "Z16661" 5
  rw [if_neg (by decide : ¬ ("Z16661" : String) = "Z16662"), if_pos rfl,
    if_pos (by decide : 0 < 5)] at h
  exact ⟨h, by rw [h]; intro hc; exact absurd (Except.ok.inj hc) (by simp)⟩

/-- Claim C6, amended. Decoding a canonically nested Integer wire object
multiplies the parsed magnitude by +1, 0 or -1 according to the resolved
sign marker, except that when the sign marker is zero and the magnitude is
positive, the decoder returns the positive magnitude itself instead of 0. -/
theorem c6_integer_decode_amended (s : String) (m : Nat) :
    convertZObjectToValue (mkIntegerWire s m) =
      .ok (.bigint (if s = "Z16662" then -(m : Int)
        else if s = "Z16661" then (if 0 < m then (m : Int) else 0)
        else (m : Int))) :=
  decode_mkIntegerWire s m

/-- Claim C7. Any value that is falsy, or whose Z1K1 property is not a
string, or whose string tag is unrecognized while the matching value key is
absent, decodes to itself (identity fallback). -/
theorem c7_identity_fallback (v : JsVal)
    (h : jsFalsy v = true ∨ (∀ t, v.getField "Z1K1" ≠ .str t) ∨
      ∃ t, v.getField "Z1K1" = .str t ∧ t ≠ "Z16683" ∧ t ≠ "Z20838" ∧
        hasOwnProperty v (t ++ "K1") = false) :
    convertZObjectToValue v = .ok v := by
  by_cases hf : jsFalsy v = true
  · rw [convertZObjectToValue, if_pos hf]
  · rw [convertZObjectToValue, if_neg hf]
    rcases h with h | h | ⟨t, ht, h1, h2, h3⟩
    · exact absurd h hf
    · cases hG : v.getField "Z1K1" <;> simp_all
    · rw [ht]
      simp [h1, h2, h3]

/-- Claim C7, witness: a concrete object with no Z1K1 property decodes to
itself. -/
theorem c7_identity_fallback_witness :
    convertZObjectToValue (.obj [("foo", .str "x")]) = .ok (.obj [("foo", .str "x")]) :=
  c7_identity_fallback (.obj [("foo", .str "x")])
    (Or.inr (Or.inl (fun t h => by simp [JsVal.getField, getFieldList] at h)))

/-- Claim C8. Whenever the value coerces to the BigInt 0, encoding with the
Integer target produces the wire object with sign marker Z16661 (zero) and
magnitude string "0". -/
theorem c8_zero_canonicalization (v : JsVal) (h : jsBigIntOf v = .ok 0) :
    convertValueToZObject v "Z16683" = .ok (mkIntegerWire "Z16661" 0) := by
  rw [convertValueToZObject, if_pos rfl, h]
  rfl

/-- Claim C8, witness: encoding the BigInt 0 itself. -/
theorem c8_zero_canonicalization_witness :
    convertValueToZObject (.bigint 0) "Z16683" = .ok (mkIntegerWire "Z16661" 0) :=
  c8_zero_canonicalization (.bigint 0) rfl

/-- Claim C9, counterexample. The claim states the sign-resolving loop is
bounded so that cyclic input cannot cause an infinite loop; but the loop in
the source has no bound, and on the cyclic object a with a.Z9K1 === a
(reference semantics, modelled by a one-object heap) the loop condition
holds after every number of iterations, so the loop never terminates. -/
theorem c9_cyclic_loop_counterexample :
    signLoopTerminates cyclicSignHeap (.addr 0) ↔ False := by
  rw [iff_false]
  rintro ⟨n, hn⟩
  rw [signIter_cyclic] at hn
  simp [isAddrH] at hn

/-- Claim C9, amended. On every tree-shaped (acyclic, e.g. JSON-parsed)
input the loop does terminate: some finite fuel makes the fuel-indexed loop
finish, with the same result as the recursive embedding; each unwrap step
descends into a strict subobject. The loop is not explicitly bounded, and
cyclic in-memory objects make it diverge. -/
theorem c9_tree_termination_amended (v : JsVal) :
    ∃ n, unwrapSignFuel n v = some (unwrapSign v) := by
  have aux : ∀ (l : List (String × JsVal)) (key : String),
      (getFieldList l key).isSome = true →
      sizeOf ((getFieldList l key).getD JsVal.undefinedV) < 1 + sizeOf l := by
    intro l key h
    induction l with
    | nil => simp [getFieldList] at h
    | cons p rest ih =>
      obtain ⟨k, v⟩ := p
      simp only [getFieldList] at h ⊢
      by_cases hk : k = key
      · rw [if_pos hk] at h ⊢
        have s1 : sizeOf ((k, v) :: rest) = 1 + sizeOf (k, v) + sizeOf rest := by simp
        have s2 : sizeOf (k, v) = 1 + sizeOf k + sizeOf v := by simp
        simp only [Option.getD_some]
        omega
      · rw [if_neg hk] at h ⊢
        have h3 := ih h
        have s1 : sizeOf ((k, v) :: rest) = 1 + sizeOf (k, v) + sizeOf rest := by simp
        omega
  have H : ∀ (k : Nat) (w : JsVal), sizeOf w ≤ k →
      ∃ n, unwrapSignFuel n w = some (unwrapSign w) := by
    intro k
    induction k with
    | zero =>
      intro w hw
      have : 0 < sizeOf w := by cases w <;> simp
      omega
    | succ k ih =>
      intro w hw
      cases w with
      | obj fs =>
        have hsz : sizeOf (JsVal.obj fs) = 1 + sizeOf fs := by simp
        by_cases h9 : (getFieldList fs "Z9K1").isSome = true
        · have hlt := aux fs "Z9K1" h9
          obtain ⟨n, hn⟩ := ih ((getFieldList fs "Z9K1").getD .undefinedV) (by omega)
          refine ⟨n + 1, ?_⟩
          rw [unwrapSignFuel]
          simp only [h9, if_pos]
          rw [hn, unwrapSign_obj, if_pos h9]
        · by_cases h16 : (getFieldList fs "Z16659K1").isSome = true
          · have hlt := aux fs "Z16659K1" h16
            obtain ⟨n, hn⟩ := ih ((getFieldList fs "Z16659K1").getD .undefinedV) (by omega)
            refine ⟨n + 1, ?_⟩
            rw [unwrapSignFuel]
            simp only [h9, h16, if_pos, if_neg, if_true, if_false, Bool.false_eq_true]
            rw [hn, unwrapSign_obj, if_neg h9, if_pos h16]
          · refine ⟨1, ?_⟩
            rw [unwrapSignFuel]
            simp only [h9, h16, if_neg, if_false, Bool.false_eq_true]
            rw [unwrapSign_obj, if_neg h9, if_neg h16]
      | undefinedV => exact ⟨1, by simp [unwrapSignFuel, unwrapSign]⟩
      | null => exact ⟨1, by simp [unwrapSignFuel, unwrapSign]⟩
      | bool b => exact ⟨1, by simp [unwrapSignFuel, unwrapSign]⟩
      | num a => exact ⟨1, by simp [unwrapSignFuel, unwrapSign]⟩
      | bigint a => exact ⟨1, by simp [unwrapSignFuel, unwrapSign]⟩
      | str a => exact ⟨1, by simp [unwrapSignFuel, unwrapSign]⟩
  exact H (sizeOf v) v le_rfl

/-- Claim C10, counterexample. The claim states decode(encode(v, t)) equals
String(v) for every target t other than the Integer and Float64 tags; but
for t = "Z1" the computed value key Z1K1 collides with the type tag key, the
encoded object is just Z1K1 : String(v), and decoding it does not return the
string "hello". -/
theorem c10_default_roundtrip_counterexample :
    (convertValueToZObject (.str "hello") "Z1").bind convertZObjectToValue
      = .ok (.obj [("Z1K1", .str "hello")]) ∧
    (convertValueToZObject (.str "hello") "Z1").bind convertZObjectToValue
      ≠ .ok (.str "hello") :=
  ⟨rfl, fun h => JsVal.noConfusion (Except.ok.inj h)⟩

/-- Claim C10, amended. For every value v and every target t other than
"Z16683", "Z20838" and "Z1" (whose value key collides with the type tag key
Z1K1), decoding the encoded value returns the string coercion String(v); in
particular every string round-trips under such targets. -/
theorem c10_default_roundtrip_amended (v : JsVal) (t : String)
    (h1 : t ≠ "Z16683") (h2 : t ≠ "Z20838") (h3 : t ≠ "Z1") :
    (convertValueToZObject v t).bind convertZObjectToValue = .ok (.str (jsToString v)) := by
  have hkey : ("Z1K1" : String) ≠ t ++ "K1" := by
    intro h
    apply h3
    have hd : ("Z1" ++ "K1" : String).data = (t ++ "K1").data := by
      rw [show ("Z1" ++ "K1" : String) = "Z1K1" from rfl, h]
    rw [String.data_append, String.data_append] at hd
    have := (List.append_inj' hd rfl).1
    exact (String.ext this).symm
  rw [convertValueToZObject, if_neg h1, if_neg h2]
  have henc : setFieldList [("Z1K1", JsVal.str t)] (t ++ "K1") (.str (jsToString v)) =
      [("Z1K1", JsVal.str t), (t ++ "K1", JsVal.str (jsToString v))] := by
    rw [setFieldList, if_neg hkey]
    rfl
  rw [henc]
  show convertZObjectToValue
    (.obj [("Z1K1", JsVal.str t), (t ++ "K1", JsVal.str (jsToString v))]) =
    .ok (.str (jsToString v))
  rw [convertZObjectToValue]
  have hget : JsVal.getField
      (.obj [("Z1K1", JsVal.str t), (t ++ "K1", JsVal.str (jsToString v))]) "Z1K1"
      = .str t := rfl
  rw [hget]
  have hfal : jsFalsy (.obj [("Z1K1", JsVal.str t), (t ++ "K1", JsVal.str (jsToString v))])
      = false := rfl
  rw [hfal]
  simp only [Bool.false_eq_true, if_false]
  rw [if_neg h1, if_neg h2]
  have hown : hasOwnProperty
      (.obj [("Z1K1", JsVal.str t), (t ++ "K1", JsVal.str (jsToString v))]) (t ++ "K1")
      = true := by
    rw [hasOwnProperty, getFieldList, if_neg hkey, getFieldList, if_pos rfl]
    rfl
  rw [if_pos hown]
  rw [JsVal.getField, getFieldList, if_neg hkey, getFieldList, if_pos rfl]
  rfl

/-- Claim C10, witness for the amended statement: a string under the plain
String tag Z6 round-trips to itself. -/
theorem c10_default_roundtrip_witness :
    (convertValueToZObject (.str "x") "Z6").bind convertZObjectToValue = .ok (.str "x") :=
  c10_default_roundtrip_amended (.str "x") "Z6" (by decide) (by decide) (by decide)
